import Mathlib

/-!
Verification of the SEO content-gating core: text metrics (word count,
Flesch readability, keyword density), the gate evaluator
(`DensityGateV2`), the link-provenance filter (`stripNewUrls`), the
remediation client (`callLLM` with backoff), and the fix orchestrator
(`fixAll` over `runWithConcurrency`).

Numbers that are IEEE doubles in the source are modelled as rationals
(`ℚ`); a JavaScript division whose denominator is zero (which yields
`NaN` in the source) is modelled as `Option.none`.  JavaScript string
operations are modelled over Lean `String` with ASCII case folding.
-/

/-- Whitespace class used by the source's `/\s+/` splits (common ASCII
whitespace characters). -/
def jsIsSpace (c : Char) : Bool :=
  c = ' ' || c = '\t' || c = '\n' || c = '\r' || c = '\x0b' || c = '\x0c'

/-- JavaScript `toLowerCase()`, modelled as ASCII lower-casing. -/
def jsToLower (s : String) : String := String.mk (s.toList.map Char.toLower)

/-- Split a character list at every character satisfying `p`, keeping
empty pieces (the behaviour of a JavaScript single-character-class
split); a maximal delimiter run therefore yields empty pieces that the
callers' `filter(Boolean)` drops, which is exactly a `/class+/` split. -/
def listSplit (p : Char → Bool) : List Char → List (List Char)
  | [] => [[]]
  | c :: rest =>
    let r := listSplit p rest
    if p c then [] :: r
    else
      match r with
      | h :: t => (c :: h) :: t
      | [] => [[c]]

/-- JavaScript `trim()`: drop leading and trailing whitespace. -/
def trimChars (cs : List Char) : List Char :=
  ((cs.dropWhile jsIsSpace).reverse.dropWhile jsIsSpace).reverse

/-- JavaScript `trim()` on strings. -/
def jsTrim (s : String) : String := String.mk (trimChars s.toList)

/-- Tokens of `text.split(/\s+/).filter(Boolean)`: split on whitespace and
drop empty pieces. -/
def wsTokens (s : String) : List String :=
  ((listSplit jsIsSpace s.toList).map String.mk).filter (fun t => t ≠ "")

/-- JavaScript `Math.round`: round half toward positive infinity. -/
def jsRound (q : ℚ) : ℤ := Int.floor (q + 1/2)

/-- Sentence splitter of `text.split(/[.!?]+\s/)`: a delimiter is a maximal
run of `.!?` followed by one whitespace character.  `pend` holds the
trailing punctuation run of the current piece (reversed) and `acc` the
rest of the current piece (reversed). -/
def sentSplitAux : List Char → List Char → List Char → List String
  | [], pend, acc => [String.mk (acc.reverse ++ pend.reverse)]
  | c :: rest, pend, acc =>
    if c = '.' || c = '!' || c = '?' then
      sentSplitAux rest (c :: pend) acc
    else if jsIsSpace c && pend ≠ [] then
      String.mk acc.reverse :: sentSplitAux rest [] []
    else
      sentSplitAux rest [] (c :: (pend ++ acc))

/-- Pieces of `text.split(/[.!?]+\s/)`. -/
def sentPieces (s : String) : List String := sentSplitAux s.toList [] []

/-- Number of sentences: `text.split(/[.!?]+\s/).filter(Boolean).length`. -/
def sentenceCount (s : String) : Nat :=
  ((sentPieces s).filter (fun x => x ≠ "")).length

/-- Vowel class of the syllable regex `/[aeiouy]{1,2}/gi`. -/
def isVowelY (c : Char) : Bool :=
  let d := c.toLower
  d = 'a' || d = 'e' || d = 'i' || d = 'o' || d = 'u' || d = 'y'

/-- Number of matches of `/[aeiouy]{1,2}/gi` in a word: a greedy global
scan takes two vowels at a time inside each maximal vowel run, so a run
of length `L` contributes `⌈L/2⌉` matches.  `run` carries the length of
the current vowel run. -/
def sylCountAux : List Char → Nat → Nat
  | [], run => (run + 1) / 2
  | c :: rest, run =>
    if isVowelY c then sylCountAux rest (run + 1)
    else (run + 1) / 2 + sylCountAux rest 0

/-- Syllable-estimate matches for one word (before the `Math.max 1`). -/
def sylCount (w : String) : Nat := sylCountAux w.toList 0

/-- Word class of `DensityGate_v2`'s `/[^\w']+/` split: `\w` plus the
apostrophe. -/
def isWordCharGate (c : Char) : Bool := c.isAlphanum || c = '_' || c = '\''

/-- Word class of `layout.tsx`'s `/[^A-Za-z0-9']+/` split. -/
def isWordCharLayout (c : Char) : Bool := c.isAlpha || c.isDigit || c = '\''

/-- Words of `calculateFleschScore`: `text.trim().split(/[^\w']+/).filter(Boolean)`. -/
def gateWords (text : String) : List String :=
  ((listSplit (fun c => !(isWordCharGate c)) (trimChars text.toList)).map String.mk).filter
    (fun t => t ≠ "")

/-- Words of `fleschReadingEase`: `text.trim().split(/[^A-Za-z0-9']+/).filter(Boolean)`. -/
def layoutWords (text : String) : List String :=
  ((listSplit (fun c => !(isWordCharLayout c)) (trimChars text.toList)).map String.mk).filter
    (fun t => t ≠ "")

/-- Total syllable estimate: `words.reduce((t, w) => t + Math.max(1, matches(w)), 0)`. -/
def totalSyllables (words : List String) : Nat :=
  words.foldl (fun t w => t + max 1 (sylCount w)) 0

/-- The gate's `calculateFleschScore` (`DensityGate_v2.tsx`).  The
sentence count is floored to 1 (`|| 1`), the word count is NOT: with
zero words the source computes `syllables / 0 = NaN` and returns `NaN`,
modelled as `none`. -/
def calculateFleschScore (text : String) : Option ℤ :=
  let sRaw := sentenceCount text
  let sentences := if sRaw = 0 then 1 else sRaw
  let words := gateWords text
  let syllables := totalSyllables words
  if words.length = 0 then none
  else
    let avgWordsPerSentence : ℚ := (words.length : ℚ) / (sentences : ℚ)
    let avgSyllablesPerWord : ℚ := (syllables : ℚ) / (words.length : ℚ)
    some (jsRound ((206835 : ℚ)/1000 - (1015 : ℚ)/1000 * avgWordsPerSentence
      - (846 : ℚ)/10 * avgSyllablesPerWord))

/-- The layout's `fleschReadingEase` (`layout.tsx`), which floors BOTH the
sentence count and the word count to 1 (`const W = words.length || 1`),
so it is total. -/
def fleschReadingEase (text : String) : ℤ :=
  let sRaw := sentenceCount text
  let sentences := if sRaw = 0 then 1 else sRaw
  let words := layoutWords text
  let syllables := totalSyllables words
  let W : ℚ := ((if words.length = 0 then 1 else words.length : ℕ) : ℚ)
  let S : ℚ := (sentences : ℚ)
  jsRound ((206835 : ℚ)/1000 - (1015 : ℚ)/1000 * (W / S)
    - (846 : ℚ)/10 * ((syllables : ℚ) / W))

/-- JavaScript `RegExp` atom in the fragment the source's multi-word
keyword patterns are modelled over: a literal character or `.`. -/
inductive RegexAtom
  | lit (c : Char)
  | dot
deriving DecidableEq

/-- Whether one regex atom matches one character (`.` matches everything
except line terminators). -/
def atomMatches : RegexAtom → Char → Bool
  | .lit c, d => c = d
  | .dot, d => !(d = '\n' || d = '\r' || d = '\u2028' || d = '\u2029')

/-- Whether a fixed-length atom pattern matches at the front of the text. -/
def frontMatch : List RegexAtom → List Char → Bool
  | [], _ => true
  | _ :: _, [] => false
  | a :: ps, c :: cs => atomMatches a c && frontMatch ps cs

/-- Number of matches of `text.match(new RegExp(pattern, "g"))` for a
fixed-length atom pattern: a global, non-overlapping, left-to-right scan;
after a match the scan resumes after it (an empty match advances by one,
and also matches at the end of the text, as in JavaScript). -/
def countOccAtoms (pat : List RegexAtom) (txt : List Char) : Nat :=
  match txt with
  | [] => if frontMatch pat [] then 1 else 0
  | _ :: rest =>
    if frontMatch pat txt then
      match pat with
      | [] => 1 + countOccAtoms [] rest
      | _ :: ps => 1 + countOccAtoms pat (List.drop ps.length rest)
    else countOccAtoms pat rest
termination_by txt.length
decreasing_by
  all_goals simp only [List.length_cons, List.length_drop]
  all_goals omega

/-- Modelled from the spec: "phrase occurrences are found via literal
substring ... match over the lower-cased text" — the same global
non-overlapping scan, but comparing the phrase literally. -/
def countOccLit (pat txt : List Char) : Nat :=
  match txt with
  | [] => if pat.isEmpty then 1 else 0
  | _ :: rest =>
    if pat.isPrefixOf txt then
      match pat with
      | [] => 1 + countOccLit [] rest
      | _ :: ps => 1 + countOccLit pat (List.drop ps.length rest)
    else countOccLit pat rest
termination_by txt.length
decreasing_by
  all_goals simp only [List.length_cons, List.length_drop]
  all_goals omega

/-- Characters that are special in a JavaScript `RegExp` source string
other than `.` (which the atom fragment supports). -/
def regexMetaChars : List Char :=
  ['\\', '^', '$', '*', '+', '?', '(', ')', '[', ']', '\x7b', '\x7d', '|']

/-- One character of a metacharacter-free pattern as an atom. -/
def toAtom (c : Char) : RegexAtom := if c = '.' then .dot else .lit c

/-- Classification of `new RegExp(keywordLower, "g")`:
`atoms` — the pattern only uses literal characters and `.`, so its
matching is captured exactly by `countOccAtoms`; `invalidPat` — the
pattern is an invalid regex and `new RegExp` throws (modelled for a
leading quantifier, which has nothing to repeat); `beyondModel` — the
pattern uses regex features outside the fragment; this class occurs in
no theorem below. -/
inductive RegexClass
  | atoms (pat : List RegexAtom)
  | invalidPat
  | beyondModel
deriving DecidableEq

/-- Classify a regex source string into the fragment. -/
def classifyRegex (s : String) : RegexClass :=
  if s.toList.all (fun c => !(regexMetaChars.contains c)) then
    .atoms (s.toList.map toAtom)
  else
    match s.toList with
    | c :: _ => if c = '*' || c = '+' || c = '?' then .invalidPat else .beyondModel
    | [] => .beyondModel

/-- The gate's `calculateKeywordDensity` (`DensityGate_v2.tsx`).  An
empty (or all-whitespace) keyword yields 0; a single-word keyword counts
exact token matches; a multi-word keyword builds `new RegExp(keywordLower,
"g")` and counts its global matches over the lower-cased text.  A pattern
on which `new RegExp` throws is an evaluation error (`Except.error`);
patterns beyond the modelled regex fragment are conservatively mapped to
`Except.error` as well and are used by no theorem. -/
def calculateKeywordDensity (text keyword : String) : Except Unit ℚ :=
  if jsTrim keyword = "" then .ok 0
  else
    let words := wsTokens (jsToLower text)
    let keywordWords := wsTokens (jsToLower keyword)
    match keywordWords with
    | [kw0] =>
      let m := (words.filter (fun w => w = kw0)).length
      .ok (if 0 < words.length then ((m : ℚ) / (words.length : ℚ)) * 100 else 0)
    | _ =>
      match classifyRegex (jsToLower keyword) with
      | .atoms pat =>
        let m := countOccAtoms pat (jsToLower text).toList
        .ok (if 0 < words.length then
          (((m * keywordWords.length : ℕ) : ℚ) / (words.length : ℚ)) * 100 else 0)
      | _ => .error ()

/-- JavaScript `toFixed(2)` for a nonnegative number: round to an integer
number of hundredths (half away from zero, hence half up here) and print
with exactly two decimals. -/
def toFixed2 (q : ℚ) : String :=
  let n : ℤ := Int.floor (q * 100 + 1/2)
  let whole := n / 100
  let frac := (n % 100).toNat
  toString whole ++ "." ++ (if frac < 10 then "0" else "") ++ toString frac

/-- JavaScript number-to-string for a rational with a finite decimal
expansion: an integer prints without a point, otherwise the shortest
decimal expansion is printed. -/
def qToString (q : ℚ) : String :=
  if q.den = 1 then toString q.num
  else
    match (List.range 20).findSome?
      (fun k => if (q * 10 ^ (k+1)).den = 1 then some (k+1) else none) with
    | some k =>
      let n := (q * 10 ^ k).num
      let s := toString n.natAbs
      let s := if s.length ≤ k then
          String.mk (List.replicate (k + 1 - s.length) '0') ++ s
        else s
      let digits := s.toList
      let intPart := String.mk (digits.take (digits.length - k))
      let fracPart := String.mk (digits.drop (digits.length - k))
      (if q < 0 then "-" else "") ++ intPart ++ "." ++ fracPart
    | none => toString q.num ++ "/" ++ toString q.den

/-- JavaScript `String.prototype.includes` over character lists (the
empty pattern is contained in everything). -/
def listHasSub (pat txt : List Char) : Bool :=
  match txt with
  | [] => pat.isEmpty
  | _ :: rest => pat.isPrefixOf txt || listHasSub pat rest

/-- JavaScript `txt.includes(pat)`. -/
def strIncludes (txt pat : String) : Bool := listHasSub pat.toList txt.toList

/-- JavaScript `Array.prototype.join` with a separator. -/
def joinSep (sep : String) : List String → String
  | [] => ""
  | [x] => x
  | x :: xs => x ++ sep ++ joinSep sep xs

/-- The `DensityGateTargets` configuration record; absent fields are
`none`. -/
structure DGTargets where
  primaryMin : Option ℚ := none
  primaryMax : Option ℚ := none
  wordCountMin : Option Nat := none
  fleschMin : Option ℤ := none
  brandTokens : Option (List String) := none
deriving DecidableEq

/-- JavaScript `v || d` for an optional rational field: `undefined` and
`0` are falsy, so both fall back to the default. -/
def jsOrQ (v : Option ℚ) (d : ℚ) : ℚ :=
  match v with
  | some x => if x = 0 then d else x
  | none => d

/-- JavaScript `v || d` for an optional natural-number field. -/
def jsOrNat (v : Option Nat) (d : Nat) : Nat :=
  match v with
  | some x => if x = 0 then d else x
  | none => d

/-- JavaScript `v || d` for an optional integer field. -/
def jsOrInt (v : Option ℤ) (d : ℤ) : ℤ :=
  match v with
  | some x => if x = 0 then d else x
  | none => d

/-- One gate `Check`: pass flag, label and remediation hint (the source
always supplies a hint). -/
structure DGCheck where
  pass : Bool
  label : String
  hint : String
deriving DecidableEq

/-- The `auditJson` snapshot: the success shape records the metrics and
inputs plus `Date.now()`; the catch handler produces the error shape
`\x7b error: true, timestamp \x7d`. -/
inductive DGAudit
  | ok (timestamp : ℤ) (wordCount : Nat) (fleschScore : Option ℤ)
      (primaryDensity : ℚ) (primary : String) (secondaries : List String)
      (targets : DGTargets)
  | err (timestamp : ℤ)
deriving DecidableEq

/-- A gate `Verdict` (`DensityGateResult`). -/
structure DGResult where
  pass : Bool
  checks : List DGCheck
  auditJson : DGAudit
deriving DecidableEq

/-- Rendering of the measured Flesch score inside the readability label
(`NaN` when the computation divided by zero). -/
def fleschStr : Option ℤ → String
  | some v => toString v
  | none => "NaN"

/-- Modelled from the spec: `stripHtml` delegates to the browser's
`DOMParser` ("strips markup"), which is an external collaborator not in
`src/`; modelled as deleting every `<...>` tag span.  `inTag` records
whether the scan is inside a tag. -/
def stripTags : List Char → Bool → List Char
  | [], _ => []
  | c :: cs, true => if c = '>' then stripTags cs false else stripTags cs true
  | c :: cs, false => if c = '<' then stripTags cs true else c :: stripTags cs false

/-- Plain text of an HTML string (see `stripTags`). -/
def stripHtml (html : String) : String := String.mk (stripTags html.toList false)

/-- The gate's reported word count: `text.split(/\s+/).filter(Boolean).length`
over the stripped text. -/
def gateWordCount (draftHtml : String) : Nat := (wsTokens (stripHtml draftHtml)).length

/-- The ordered check list the gate pushes: word count, primary density,
readability, then (only when brand tokens are configured and nonempty)
the brand-token check. -/
def densityGateChecks (text : String) (wordCount : Nat) (fleschScore : Option ℤ)
    (primaryDensity : ℚ) (targets : DGTargets) : List DGCheck :=
  let wordCountMin := jsOrNat targets.wordCountMin 1200
  let needMore := wordCountMin - wordCount
  let c1 : DGCheck :=
    { pass := decide (wordCountMin ≤ wordCount)
      label := s!"Word count ({wordCount}/{wordCountMin})"
      hint := if wordCount < wordCountMin then s!"Need {needMore} more words"
        else "Good word count" }
  let primaryMin := jsOrQ targets.primaryMin (1/100) * 100
  let primaryMax := jsOrQ targets.primaryMax (18/1000) * 100
  let densStr := toFixed2 primaryDensity
  let minStr := qToString primaryMin
  let maxStr := qToString primaryMax
  let c2 : DGCheck :=
    { pass := decide (primaryMin ≤ primaryDensity) && decide (primaryDensity ≤ primaryMax)
      label := s!"Primary density ({densStr}%)"
      hint := if primaryDensity < primaryMin then s!"Too low, target {minStr}-{maxStr}%"
        else if primaryMax < primaryDensity then s!"Too high, target {minStr}-{maxStr}%"
        else "Good density" }
  let fleschMin := jsOrInt targets.fleschMin 55
  let fsStr := fleschStr fleschScore
  let fmStr := toString fleschMin
  let c3 : DGCheck :=
    { pass := match fleschScore with
        | some v => decide (fleschMin ≤ v)
        | none => false
      label := s!"Readability ({fsStr}/{fmStr})"
      hint := if (match fleschScore with
          | some v => decide (v < fleschMin)
          | none => false) then "Content is too complex"
        else "Good readability" }
  let brandChecks : List DGCheck :=
    match targets.brandTokens with
    | some toks =>
      if 0 < toks.length then
        let textLower := jsToLower text
        let missing := toks.filter (fun tok => !(strIncludes textLower (jsToLower tok)))
        let present := toks.length - missing.length
        let total := toks.length
        [{ pass := decide (missing.length = 0)
           label := s!"Brand tokens ({present}/{total})"
           hint := if 0 < missing.length then "Missing: " ++ joinSep ", " missing
             else "All brand tokens present" }]
      else []
    | none => []
  c1 :: c2 :: c3 :: brandChecks

/-- The `try` body of the gate's evaluation effect: strip, measure,
build the ordered checks, AND them, and snapshot the audit record.  An
evaluation throw (the multi-word keyword regex failing to construct)
surfaces as `Except.error`. -/
def densityGateBody (draftHtml primary : String) (secondaries : List String)
    (targets : DGTargets) (now : ℤ) : Except Unit DGResult :=
  let text := stripHtml draftHtml
  let wordCount := (wsTokens text).length
  let fleschScore := calculateFleschScore text
  match calculateKeywordDensity text primary with
  | .error e => .error e
  | .ok primaryDensity =>
    let checks := densityGateChecks text wordCount fleschScore primaryDensity targets
    .ok { pass := checks.all (fun c => c.pass)
          checks := checks
          auditJson := .ok now wordCount fleschScore primaryDensity primary
            secondaries targets }

/-- The catch handler's fallback verdict: one synthetic failing check. -/
def densityGateFallback (now : ℤ) : DGResult :=
  { pass := false
    checks := [{ pass := false, label := "Evaluation error", hint := "Failed to evaluate content" }]
    auditJson := .err now }

/-- The gate evaluation as observed through `onEvaluate`: `none` when the
effect returns early (`!draftHtml || !primary`), otherwise the try body's
verdict, degraded to the fallback verdict when the body throws. -/
def densityGateV2 (draftHtml primary : String) (secondaries : List String)
    (targets : DGTargets) (now : ℤ) : Option DGResult :=
  if draftHtml = "" || primary = "" then none
  else some (match densityGateBody draftHtml primary secondaries targets now with
    | .ok r => r
    | .error _ => densityGateFallback now)

/-- An HTML node as seen by the provenance filter: a text node or an
anchor (`<a href>` element) with its href and visible text. -/
inductive HtmlNode
  | textNode (s : String)
  | anchor (href txt : String)
deriving DecidableEq

/-- Modelled from the spec: the WHATWG `URL` constructor used by
`extractUrls` / `stripNewUrls` is a browser collaborator not in `src/`
("Malformed URLs are treated as disallowed").  The model accepts
`http(s)://host...` with a nonempty host, extracts the lower-cased
hostname, and keeps `href` as the given string (inputs are assumed
already in resolved form); everything else fails to parse. -/
structure JsUrl where
  href : String
  hostname : String
deriving DecidableEq

/-- JavaScript `s.startsWith(pre)` over the character lists. -/
def strStartsWith (s pre : String) : Bool := pre.toList.isPrefixOf s.toList

/-- JavaScript `s.endsWith(suf)` over the character lists. -/
def strEndsWith (s suf : String) : Bool := suf.toList.isSuffixOf s.toList

/-- Parse a URL string in the model (see `JsUrl`). -/
def parseJsUrl (s : String) : Option JsUrl :=
  let rest? :=
    if strStartsWith s "http://" then some (s.toList.drop 7)
    else if strStartsWith s "https://" then some (s.toList.drop 8)
    else none
  match rest? with
  | none => none
  | some rest =>
    let host := rest.takeWhile (fun c => !(c = '/' || c = '?' || c = '#' || c = ':'))
    if host = [] then none else some { href := s, hostname := jsToLower (String.mk host) }

/-- The source's `extractUrls`: the set of `new URL(a.href).href` over all
anchors, skipping anchors whose URL fails to parse (`try ... catch`). -/
def extractUrls (d : List HtmlNode) : List String :=
  d.foldr (fun n acc =>
    match n with
    | .anchor h _ =>
      match parseJsUrl h with
      | some u => u.href :: acc
      | none => acc
    | .textNode _ => acc) []

/-- The allow-list test of `stripNewUrls`:
`allowDomains.some((dom) => u.hostname === dom || u.hostname.endsWith(`.${dom}`))`. -/
def allowHost (allow : List String) (host : String) : Bool :=
  allow.any (fun dom => host = dom || strEndsWith host ("." ++ dom))

/-- The per-anchor body of `stripNewUrls`: keep a link whose href is in
the original link set; otherwise keep it only if its URL parses and its
hostname is allow-listed (a parse failure leaves `ok` false); otherwise
replace the anchor with a text node holding its visible text. -/
def stripNode (orig : List HtmlNode) (allow : List String) (n : HtmlNode) : HtmlNode :=
  match n with
  | .textNode s => .textNode s
  | .anchor href txt =>
    let ok0 := (extractUrls orig).contains href
    let ok := if ok0 then true
      else match parseJsUrl href with
        | some u => allowHost allow u.hostname
        | none => false
    if ok then .anchor href txt else .textNode txt

/-- The source's `stripNewUrls`: process every anchor of the revised
document against the original document's link set and the allow-list. -/
def stripNewUrls (orig rev : List HtmlNode) (allow : List String) : List HtmlNode :=
  rev.map (stripNode orig allow)

/-- Outcome of one `fetch` inside `callLLM`: a parsed content string, or
a thrown error carrying the HTTP status (`status` is 0 when the thrown
error has none, e.g. a network failure). -/
inductive FetchOutcome
  | ok (content : String)
  | err (status : Nat)
deriving DecidableEq

/-- Failure of `callLLM`: the missing-credential throw, or the last
observed HTTP error. -/
inductive CallErr
  | missingKey
  | http (status : Nat)
deriving DecidableEq

/-- Decidable equality for `Except` results (componentwise). -/
instance {e a : Type} [DecidableEq e] [DecidableEq a] : DecidableEq (Except e a) := fun x y =>
  match x, y with
  | .ok u, .ok v =>
    if h : u = v then isTrue (by rw [h]) else isFalse (by simp [h])
  | .error u, .error v =>
    if h : u = v then isTrue (by rw [h]) else isFalse (by simp [h])
  | .ok _, .error _ => isFalse (by simp)
  | .error _, .ok _ => isFalse (by simp)

/-- Observable behaviour of one `callLLM` invocation: how many fetches
were issued, the backoff delays awaited between them (in order), and the
final result. -/
structure CallResult where
  fetches : Nat
  delays : List ℚ
  result : Except CallErr String
deriving DecidableEq

/-- The source's `maxAttempts = 5`. -/
def llmMaxAttempts : Nat := 5

/-- The source's `baseDelay = 800`. -/
def llmBaseDelay : ℚ := 800

/-- One backoff delay: `Math.min(8000, baseDelay * Math.pow(2, attempt)) + jitter`
with `jitter = Math.random() * 200`, supplied here as an oracle. -/
def backoffDelay (attempt : Nat) (jitter : ℚ) : ℚ :=
  min 8000 (llmBaseDelay * 2 ^ attempt) + jitter

/-- The source's `callLLM`, with the provider fetches replaced by a
script of outcomes per attempt index and the jitter by an oracle.  A
missing API key throws before any fetch; a thrown fetch error is retried
(after a backoff delay) exactly when the attempt budget remains and the
status is 429 or at least 500; otherwise the error propagates. -/
def callLLM (apiKey : String) (script : Nat → FetchOutcome) (jitter : Nat → ℚ)
    (attempt : Nat) : CallResult :=
  if apiKey = "" then { fetches := 0, delays := [], result := .error .missingKey }
  else
    match script attempt with
    | .ok c => { fetches := 1, delays := [], result := .ok c }
    | .err status =>
      if attempt < llmMaxAttempts - 1 && (status = 429 || 500 ≤ status) then
        let r := callLLM apiKey script jitter (attempt + 1)
        { fetches := r.fetches + 1
          delays := backoffDelay attempt (jitter attempt) :: r.delays
          result := r.result }
      else { fetches := 1, delays := [], result := .error (.http status) }
termination_by llmMaxAttempts - attempt
decreasing_by
  simp_all only [llmMaxAttempts, Bool.and_eq_true, decide_eq_true_eq]
  omega

/-- Outcome of one remediation task (`fixOne`): the promise resolves or
rejects. -/
inductive TaskOutcome
  | ok
  | fail
deriving DecidableEq

/-- Whether a task outcome is a resolution. -/
def isOkTask : TaskOutcome → Bool
  | .ok => true
  | .fail => false

/-- Execution trace of `runWithConcurrency` specialised to one worker
(`pool = 1`, the `Math.max(1, pool)` floor): the single worker claims
`cur = i++` and awaits `tasks[cur]()` in order; a rejection aborts the
worker's loop, so later tasks are never started.  Returns the indices of
the tasks that were started, offset by `i`. -/
def runSeqExecAux : List TaskOutcome → Nat → List Nat
  | [], _ => []
  | t :: rest, i => if isOkTask t then i :: runSeqExecAux rest (i + 1) else [i]

/-- Indices of the tasks `runWithConcurrency 1 tasks` actually starts. -/
def runSeqExec (tasks : List TaskOutcome) : List Nat := runSeqExecAux tasks 0

/-- A document (`Draft`) as the orchestrator sees it: identifier, working
HTML, last fixed HTML, latest gate verdict, and the number of "fix"
history entries. -/
structure DraftM where
  id : String
  html : List HtmlNode
  fixedHtml : Option (List HtmlNode)
  gate : Option DGResult
  histFixCount : Nat
deriving DecidableEq

/-- The tail of `fixOne` after `callLLM` resolves or rejects: on
rejection the error propagates and no draft field is written; on
resolution the rewritten HTML goes through `stripNewUrls` against the
pre-fix HTML and the draft's working HTML is replaced (the `gate` field
is not touched by `fixOne` in either case). -/
def fixOneResult (allow : List String) (d : DraftM)
    (llm : Except CallErr (List HtmlNode)) : Except CallErr DraftM :=
  match llm with
  | .error e => .error e
  | .ok newHtml =>
    let filtered := stripNewUrls d.html newHtml allow
    .ok { d with html := filtered, fixedHtml := some filtered,
                 histFixCount := d.histFixCount + 1 }

/-- The `setDrafts` update induced by one `fixOne`: a rejected fix leaves
the draft list untouched; a resolved fix replaces exactly the entry with
the matching identifier. -/
def applyFix (drafts : List DraftM) (d : DraftM)
    (res : Except CallErr DraftM) : List DraftM :=
  match res with
  | .error _ => drafts
  | .ok d2 => drafts.map (fun x => if x.id = d.id then d2 else x)

/-- State of the `runWithConcurrency` worker pool: `next` is the shared
cursor `i`, `inflight` the indices claimed but not yet settled, `done`
the settled (resolved or rejected) indices, and `workers` the workers
whose claim loop is still alive — a worker whose task rejects throws out
of its loop and never claims again. -/
structure PoolState where
  next : Nat
  inflight : Finset Nat
  done : Finset Nat
  workers : Nat
deriving DecidableEq

/-- The initial pool state: `i = 0`, nothing claimed, all `pool` workers
alive. -/
def initPool (pool : Nat) : PoolState :=
  { next := 0, inflight := ∅, done := ∅, workers := pool }

/-- Atomic transitions of the pool over `n` tasks: a live worker holding
no task claims `cur = i++` (possible only while fewer tasks are in
flight than there are live workers and the queue is not exhausted); an
in-flight task resolves, freeing its worker to claim again; or an
in-flight task rejects, which settles the task but kills its worker
(`await tasks[cur]()` throws out of the worker's `while` loop). -/
inductive PoolStep (pool n : Nat) : PoolState → PoolState → Prop
  | claim (s : PoolState) (h1 : s.inflight.card < s.workers) (h2 : s.next < n) :
      PoolStep pool n s
        { next := s.next + 1, inflight := insert s.next s.inflight, done := s.done,
          workers := s.workers }
  | resolve (s : PoolState) (t : Nat) (h : t ∈ s.inflight) :
      PoolStep pool n s
        { next := s.next, inflight := s.inflight.erase t, done := insert t s.done,
          workers := s.workers }
  | reject (s : PoolState) (t : Nat) (h : t ∈ s.inflight) :
      PoolStep pool n s
        { next := s.next, inflight := s.inflight.erase t, done := insert t s.done,
          workers := s.workers - 1 }

/-- Pool states reachable from the initial state. -/
inductive PoolReach (pool n : Nat) : PoolState → Prop
  | init : PoolReach pool n (initPool pool)
  | step {s s2 : PoolState} : PoolReach pool n s → PoolStep pool n s s2 → PoolReach pool n s2

/-- Invariant of the worker pool: in-flight tasks are held by live
workers (so never more than `pool` in flight), the cursor never passes
`n`, the claimed indices are exactly `0 .. next-1`, and no index is
simultaneously in flight and done. -/
def PoolInv (pool n : Nat) (s : PoolState) : Prop :=
  s.inflight.card ≤ s.workers ∧ s.workers ≤ pool ∧ s.next ≤ n ∧
    s.inflight ∪ s.done = Finset.range s.next ∧ Disjoint s.inflight s.done

/-- The `fixAll` pass loop over a stale failing set of size `needFix`,
under the assumption that every dispatched remediation call resolves:
for `pass = 1 .. maxPasses`, stop if nothing fails, dispatch one
remediation per failing draft, and stop after the first pass unless
`autoLoop` is on.  Returns (passes run, total remediation dispatches).
When a call rejects this count does not apply: the rejection kills a
worker (see `PoolStep.reject`), can leave queued documents undispatched,
and propagates out of `runWithConcurrency`, ending `fixAll` at that
pass. -/
def fixAllLoop (autoLoop : Bool) (needFix : Nat) : Nat → Nat × Nat
  | 0 => (0, 0)
  | budget + 1 =>
    if needFix = 0 then (0, 0)
    else if autoLoop then
      let r := fixAllLoop autoLoop needFix budget
      (r.1 + 1, r.2 + needFix)
    else (1, needFix)

/-- The observable pass/dispatch counts of `fixAll` when every
dispatched remediation call resolves (see `fixAllLoop`). -/
def fixAllModel (maxPasses : Nat) (autoLoop : Bool) (needFix : Nat) : Nat × Nat :=
  fixAllLoop autoLoop needFix maxPasses

/-- The `if`-floor of the source's `|| 1` on a natural number is the max
with 1. -/
lemma if_zero_eq_max (n : ℕ) : (if n = 0 then 1 else n) = max 1 n := by
  rcases Nat.eq_zero_or_pos n with h | h
  · simp [h]
  · rw [if_neg (Nat.pos_iff_ne_zero.mp h), Nat.max_eq_right h]

/-- Timestamp stored in an audit snapshot (both shapes carry one). -/
def auditTime : DGAudit → ℤ
  | .ok t _ _ _ _ _ _ => t
  | .err t => t

/-- An audit snapshot with its timestamp normalised to 0. -/
def scrubTime : DGAudit → DGAudit
  | .ok _ a b c d e f => .ok 0 a b c d e f
  | .err _ => .err 0

/-- With a nonempty draft and primary the gate always reports a verdict. -/
lemma gate_some (dh p : String) (sec : List String) (tg : DGTargets) (t : ℤ)
    (h1 : dh ≠ "") (h2 : p ≠ "") : ∃ r, densityGateV2 dh p sec tg t = some r := by
  unfold densityGateV2
  rw [if_neg (by simp [h1, h2])]
  exact ⟨_, rfl⟩

/-- Whatever the evaluation path, the audit snapshot records the `now`
the gate ran at. -/
lemma gate_time (dh p : String) (sec : List String) (tg : DGTargets) (t : ℤ)
    (r : DGResult) (h : densityGateV2 dh p sec tg t = some r) :
    auditTime r.auditJson = t := by
  unfold densityGateV2 at h
  split at h
  · exact absurd h (by simp)
  · rw [Option.some_inj] at h
    unfold densityGateBody at h
    dsimp only at h
    cases hd : calculateKeywordDensity (stripHtml dh) p with
    | error e => rw [hd] at h; subst h; rfl
    | ok q => rw [hd] at h; subst h; rfl

/-- C2 (amended): the sentence denominator is always floored to 1 in both
readability functions, so it never divides by zero; but only
`fleschReadingEase` (layout) also floors the word count — and it uses the
floored word count in the numerator of words-per-sentence as well.  The
gate's `calculateFleschScore` does not guard a zero word count: with at
least one word it computes the rounded Flesch formula, and with zero
words its syllables-per-word division divides by zero (`NaN`, modelled
`none`). -/
theorem c2_flesch_guards :
    (∀ text, fleschReadingEase text
        = jsRound ((206835 : ℚ)/1000
          - (1015 : ℚ)/1000 * ((max 1 (layoutWords text).length : ℕ) / (max 1 (sentenceCount text) : ℕ) : ℚ)
          - (846 : ℚ)/10 * ((totalSyllables (layoutWords text) : ℚ) / ((max 1 (layoutWords text).length : ℕ) : ℚ)))) ∧
    (∀ text, 0 < (gateWords text).length →
      calculateFleschScore text
        = some (jsRound ((206835 : ℚ)/1000
          - (1015 : ℚ)/1000 * (((gateWords text).length : ℚ) / ((max 1 (sentenceCount text) : ℕ) : ℚ))
          - (846 : ℚ)/10 * ((totalSyllables (gateWords text) : ℚ) / ((gateWords text).length : ℚ))))) ∧
    (∀ text, (gateWords text).length = 0 → calculateFleschScore text = none) := by
  refine ⟨fun text => ?_, fun text h => ?_, fun text h => ?_⟩
  · unfold fleschReadingEase
    simp only [if_zero_eq_max]
  · unfold calculateFleschScore
    rw [if_neg (Nat.pos_iff_ne_zero.mp h)]
    simp only [if_zero_eq_max]
  · unfold calculateFleschScore
    rw [if_pos h]

/-- C2 fails as stated: on the empty string the claimed formula (both
denominators floored to 1) yields `round 206.835 = 207`, but the gate's
`calculateFleschScore` divides zero syllables by zero words (`NaN`,
i.e. no integer at all), and even `fleschReadingEase` returns 206
because the floored word count 1 also feeds the words-per-sentence
numerator. -/
theorem c2_counterexample :
    calculateFleschScore "" = none ∧
    fleschReadingEase "" = 206 ∧
    jsRound ((206835 : ℚ)/1000 - (1015 : ℚ)/1000 * ((0 : ℚ)/1) - (846 : ℚ)/10 * ((0 : ℚ)/1)) = 207 := by
  refine ⟨by decide, ?_, ?_⟩
  · have h1 : sentenceCount "" = 0 := by decide
    have h2 : layoutWords "" = [] := by decide
    simp [fleschReadingEase, h1, h2, totalSyllables, jsRound]
    norm_num [Int.floor_eq_iff]
  · norm_num [jsRound, Int.floor_eq_iff]

/-- Witness for `c2_flesch_guards` at the concrete inputs `"Go now."`
(two words, one sentence) and `""` (zero words). -/
theorem c2_flesch_guards_witness :
    (0 < (gateWords "Go now.").length ∧
      calculateFleschScore "Go now."
        = some (jsRound ((206835 : ℚ)/1000
          - (1015 : ℚ)/1000 * (((gateWords "Go now.").length : ℚ) / ((max 1 (sentenceCount "Go now.") : ℕ) : ℚ))
          - (846 : ℚ)/10 * ((totalSyllables (gateWords "Go now.") : ℚ) / ((gateWords "Go now.").length : ℚ))))) ∧
    ((gateWords "").length = 0 ∧ calculateFleschScore "" = none) :=
  ⟨⟨by decide, c2_flesch_guards.2.1 "Go now." (by decide)⟩,
   ⟨by decide, c2_flesch_guards.2.2 "" (by decide)⟩⟩

/-- C3 (amended): the Gate Evaluator is deterministic in everything it
reports except the audit timestamp — two runs on identical draft HTML,
primary, secondaries and targets produce the same overall pass and the
same checks (same labels, hints and stable order), and audit snapshots
that agree once their `Date.now()` timestamps are normalised. -/
theorem c3_gate_deterministic :
    ∀ dh p sec tg t1 t2,
      ((densityGateV2 dh p sec tg t1).map (fun r => r.pass)
          = (densityGateV2 dh p sec tg t2).map (fun r => r.pass)) ∧
      ((densityGateV2 dh p sec tg t1).map (fun r => r.checks)
          = (densityGateV2 dh p sec tg t2).map (fun r => r.checks)) ∧
      ((densityGateV2 dh p sec tg t1).map (fun r => scrubTime r.auditJson)
          = (densityGateV2 dh p sec tg t2).map (fun r => scrubTime r.auditJson)) := by
  intro dh p sec tg t1 t2
  unfold densityGateV2 densityGateBody
  split
  · exact ⟨rfl, rfl, rfl⟩
  · dsimp only
    cases hd : calculateKeywordDensity (stripHtml dh) p with
    | error e => simp [hd, scrubTime, densityGateFallback]
    | ok q => simp [hd, scrubTime]

/-- C3 fails as stated: the audit snapshot embeds `Date.now()`, so two
runs of the gate on identical inputs at different instants produce
different Verdicts (their audit timestamps differ). -/
theorem c3_counterexample :
    densityGateV2 "hi" "hi" [] {} 0 ≠ densityGateV2 "hi" "hi" [] {} 1 := by
  intro h
  obtain ⟨r0, e0⟩ := gate_some "hi" "hi" [] {} 0 (by decide) (by decide)
  obtain ⟨r1, e1⟩ := gate_some "hi" "hi" [] {} 1 (by decide) (by decide)
  have hr : r0 = r1 := by
    rw [e0, e1] at h
    exact Option.some_inj.mp h
  have h0 := gate_time "hi" "hi" [] {} 0 r0 e0
  have h1 := gate_time "hi" "hi" [] {} 1 r1 e1
  rw [hr, h1] at h0
  exact absurd h0 (by decide)

/-- JavaScript-falsy normalization of an optional rational threshold:
an explicit 0 is replaced by an absent field. -/
def zeroQToNone (v : Option ℚ) : Option ℚ :=
  match v with
  | some x => if x = 0 then none else some x
  | none => none

/-- JavaScript-falsy normalization of an optional natural-number
threshold. -/
def zeroNatToNone (v : Option Nat) : Option Nat :=
  match v with
  | some x => if x = 0 then none else some x
  | none => none

/-- JavaScript-falsy normalization of an optional integer threshold. -/
def zeroIntToNone (v : Option ℤ) : Option ℤ :=
  match v with
  | some x => if x = 0 then none else some x
  | none => none

/-- A targets record with every explicitly-zero threshold replaced by an
absent field (brand tokens untouched). -/
def zeroTargetsToNone (tg : DGTargets) : DGTargets :=
  { primaryMin := zeroQToNone tg.primaryMin
    primaryMax := zeroQToNone tg.primaryMax
    wordCountMin := zeroNatToNone tg.wordCountMin
    fleschMin := zeroIntToNone tg.fleschMin
    brandTokens := tg.brandTokens }

/-- The `||`-fallback cannot tell an explicit 0 from an absent rational
field. -/
lemma jsOrQ_zeroToNone (v : Option ℚ) (d : ℚ) : jsOrQ (zeroQToNone v) d = jsOrQ v d := by
  cases v with
  | none => rfl
  | some x =>
    by_cases h : x = 0 <;> simp [zeroQToNone, jsOrQ, h]

/-- The `||`-fallback cannot tell an explicit 0 from an absent
natural-number field. -/
lemma jsOrNat_zeroToNone (v : Option Nat) (d : Nat) :
    jsOrNat (zeroNatToNone v) d = jsOrNat v d := by
  cases v with
  | none => rfl
  | some x =>
    by_cases h : x = 0 <;> simp [zeroNatToNone, jsOrNat, h]

/-- The `||`-fallback cannot tell an explicit 0 from an absent integer
field. -/
lemma jsOrInt_zeroToNone (v : Option ℤ) (d : ℤ) :
    jsOrInt (zeroIntToNone v) d = jsOrInt v d := by
  cases v with
  | none => rfl
  | some x =>
    by_cases h : x = 0 <;> simp [zeroIntToNone, jsOrInt, h]

/-- C10: a threshold explicitly configured as 0 is falsy in the source's
`targets.x || default`, so for every targets input each zero field makes
the corresponding check use the fixed default (1200 words, 1% and 1.8%
density bounds, readability 55) exactly as if that field were absent:
the reported pass and checks coincide with those for the targets record
whose zero fields are erased, whatever the other fields hold. -/
theorem c10_zero_thresholds_default :
    (jsOrNat (some 0) 1200 = 1200 ∧ jsOrQ (some 0) (1/100) = 1/100 ∧
      jsOrQ (some 0) (18/1000) = 18/1000 ∧ jsOrInt (some 0) 55 = 55) ∧
    (∀ dh p sec tg now,
      ((densityGateV2 dh p sec tg now).map (fun r => r.pass)
          = (densityGateV2 dh p sec (zeroTargetsToNone tg) now).map (fun r => r.pass)) ∧
      ((densityGateV2 dh p sec tg now).map (fun r => r.checks)
          = (densityGateV2 dh p sec (zeroTargetsToNone tg) now).map (fun r => r.checks))) := by
  refine ⟨⟨rfl, rfl, rfl, rfl⟩, fun dh p sec tg now => ?_⟩
  unfold densityGateV2 densityGateBody
  split
  · exact ⟨rfl, rfl⟩
  · dsimp only
    cases hd : calculateKeywordDensity (stripHtml dh) p with
    | error e => simp [hd]
    | ok q =>
      simp [hd, densityGateChecks, zeroTargetsToNone, jsOrQ_zeroToNone, jsOrNat_zeroToNone,
        jsOrInt_zeroToNone]

/-- C8: whenever the gate's evaluation body throws (for instance the
multi-word keyword regex fails to construct), the evaluator still
reports a verdict: overall pass false with exactly one synthetic failing
check labeled "Evaluation error". -/
theorem c8_error_fallback :
    ∀ dh p sec tg now, dh ≠ "" → p ≠ "" →
      densityGateBody dh p sec tg now = .error () →
      densityGateV2 dh p sec tg now
        = some { pass := false
                 checks := [{ pass := false, label := "Evaluation error",
                              hint := "Failed to evaluate content" }]
                 auditJson := .err now } := by
  intro dh p sec tg now h1 h2 hb
  unfold densityGateV2
  rw [if_neg (by simp [h1, h2]), hb]
  rfl

/-- Witness for `c8_error_fallback`: the primary `"+ x"` is a multi-word
keyword whose lower-cased text is an invalid regex (`new RegExp("+ x")`
throws), and the gate degrades to the synthetic failing check. -/
theorem c8_error_fallback_witness :
    densityGateV2 "x" "+ x" [] {} 0
      = some { pass := false
               checks := [{ pass := false, label := "Evaluation error",
                            hint := "Failed to evaluate content" }]
               auditJson := .err 0 } :=
  c8_error_fallback "x" "+ x" [] {} 0 (by decide) (by decide) (by decide)

/-- Modelled from the spec: "tokenize stripped plain text on
non-alphanumeric boundaries; count non-empty tokens" — the tokenization
C7 asserts the gate reports. -/
def specWordTokens (s : String) : List String :=
  ((listSplit (fun c => !(c.isAlphanum)) s.toList).map String.mk).filter (fun t => t ≠ "")

/-- An 800-word scenario document (800 copies of "seo"). -/
def scenarioDoc800 : String := String.mk ((List.replicate 800 ['s', 'e', 'o', ' ']).flatten)

/-- A single-word keyword never makes the density computation throw. -/
lemma density_single_ok (t k w : String) (h1 : jsTrim k ≠ "")
    (h2 : wsTokens (jsToLower k) = [w]) :
    ∃ q, calculateKeywordDensity t k = .ok q := by
  unfold calculateKeywordDensity
  rw [if_neg h1]
  dsimp only
  rw [h2]
  exact ⟨_, rfl⟩

set_option maxRecDepth 100000 in
/-- C7 (amended): the gate's reported word count splits the stripped text
on whitespace runs (not on all non-alphanumeric boundaries); the first
check is always the word-count check, passing exactly when the count
reaches the configured minimum (default 1200) and hinting the shortfall
when failing; on an 800-word document against the default 1200 target
the first check fails with hint "Need 400 more words" and the overall
pass is false. -/
theorem c7_word_count :
    (∀ text wc fs dens tg,
      let m := jsOrNat tg.wordCountMin 1200
      (densityGateChecks text wc fs dens tg).head?
        = some { pass := decide (m ≤ wc)
                 label := s!"Word count ({wc}/{m})"
                 hint := if wc < m then s!"Need {m - wc} more words" else "Good word count" }) ∧
    (∀ dh p sec tg now,
      (densityGateBody dh p sec tg now).toOption.map (fun v => v.checks.head?)
        = (densityGateBody dh p sec tg now).toOption.map
            (fun _ => (densityGateChecks (stripHtml dh) (gateWordCount dh) none 0 tg).head?)) ∧
    ((densityGateBody scenarioDoc800 "seo" [] {} 0).toOption.map (fun v => (v.pass, v.checks.head?))
        = some (false, some { pass := false, label := "Word count (800/1200)",
                              hint := "Need 400 more words" })) := by
  refine ⟨fun text wc fs dens tg => rfl, fun dh p sec tg now => ?_, ?_⟩
  · unfold densityGateBody
    dsimp only
    cases hd : calculateKeywordDensity (stripHtml dh) p with
    | error e => rfl
    | ok q => rfl
  · obtain ⟨q, hq⟩ := density_single_ok (stripHtml scenarioDoc800) "seo" "seo" (by decide) (by decide)
    unfold densityGateBody
    dsimp only
    rw [hq]
    have hw : (wsTokens (stripHtml scenarioDoc800)).length = 800 := by decide
    simp only [Except.toOption, Option.map, densityGateChecks, hw]
    simp [jsOrNat, List.all_cons]
    decide

set_option maxRecDepth 10000 in
/-- C7 fails as stated: the gate splits on whitespace, not on
non-alphanumeric boundaries — on the stripped text `"x-y"` the gate
reports word count 1 while the claimed tokenization counts 2 tokens. -/
theorem c7_counterexample :
    gateWordCount "x-y" = 1 ∧ (specWordTokens (stripHtml "x-y")).length = 2 := by
  decide

/-- On a pattern with no `.`, the atom matcher at the front of the text
is literal prefix matching. -/
lemma frontMatch_map_lit (pat : List Char) (hp : ∀ c ∈ pat, c ≠ '.') :
    ∀ txt, frontMatch (pat.map toAtom) txt = pat.isPrefixOf txt := by
  induction pat with
  | nil => intro txt; cases txt <;> simp [frontMatch, List.isPrefixOf]
  | cons c ps ih =>
    intro txt
    cases txt with
    | nil => rfl
    | cons d ds =>
      have hc : c ≠ '.' := hp c (List.mem_cons_self c ps)
      have hps : ∀ x ∈ ps, x ≠ '.' := fun x hx => hp x (List.mem_cons_of_mem c hx)
      simp only [List.map_cons, frontMatch, List.isPrefixOf, toAtom, if_neg hc, atomMatches]
      rw [ih hps ds]
      congr 1

/-- Prefix matching against the empty text succeeds only for the empty
pattern. -/
lemma isPrefixOf_nil_eq (pat : List Char) : pat.isPrefixOf [] = pat.isEmpty := by
  cases pat <;> rfl

/-- On a pattern with no `.`, the global regex scan counts exactly the
literal-substring occurrences. -/
lemma countOcc_atoms_eq_lit (pat : List Char) (hp : ∀ c ∈ pat, c ≠ '.') :
    ∀ txt, countOccAtoms (pat.map toAtom) txt = countOccLit pat txt := by
  have key : ∀ n txt, txt.length ≤ n → countOccAtoms (pat.map toAtom) txt = countOccLit pat txt := by
    intro n
    induction n with
    | zero =>
      intro txt hlen
      have hnil : txt = [] := List.length_eq_zero.mp (Nat.le_zero.mp hlen)
      subst hnil
      rw [countOccAtoms.eq_def, countOccLit.eq_def]
      simp only [frontMatch_map_lit pat hp, isPrefixOf_nil_eq]
    | succ n ih =>
      intro txt hlen
      cases txt with
      | nil =>
        rw [countOccAtoms.eq_def, countOccLit.eq_def]
        simp only [frontMatch_map_lit pat hp, isPrefixOf_nil_eq]
      | cons c rest =>
        rw [countOccAtoms.eq_def, countOccLit.eq_def]
        simp only [frontMatch_map_lit pat hp]
        have hlen2 : rest.length ≤ n := by simpa using hlen
        cases hpre : pat.isPrefixOf (c :: rest) with
        | true =>
          simp only [if_true]
          cases pat with
          | nil =>
            have h2 := ih rest hlen2
            simp only [List.map_nil] at h2
            simp [h2]
          | cons c2 ps =>
            have hd2 : (List.drop ps.length rest).length ≤ n := by
              have := List.length_drop ps.length rest
              omega
            have h2 := ih (List.drop ps.length rest) hd2
            simp only [List.map_cons] at h2
            simp [List.length_map, h2]
        | false =>
          simp only [Bool.false_eq_true, if_false]
          exact ih rest hlen2
  exact fun txt => key txt.length txt le_rfl

/-- C4 (amended): keyword density is case-insensitive; an empty or
all-whitespace phrase yields 0; a single-word phrase scores exact token
matches over total tokens times 100; a multi-word phrase is interpreted
as a JavaScript regular expression (global, non-overlapping scan over
the lower-cased text) — which coincides with the claimed literal
substring scan exactly when the phrase is free of regex
metacharacters. -/
theorem c4_density_formulas :
    (∀ text kw, jsTrim kw = "" → calculateKeywordDensity text kw = .ok 0) ∧
    (∀ text kw w, jsTrim kw ≠ "" → wsTokens (jsToLower kw) = [w] →
      calculateKeywordDensity text kw
        = .ok (if 0 < (wsTokens (jsToLower text)).length then
            (((wsTokens (jsToLower text)).filter (fun x => x = w)).length : ℚ)
              / ((wsTokens (jsToLower text)).length : ℚ) * 100
          else 0)) ∧
    (∀ text kw pat, jsTrim kw ≠ "" → (wsTokens (jsToLower kw)).length ≠ 1 →
      classifyRegex (jsToLower kw) = .atoms pat →
      calculateKeywordDensity text kw
        = .ok (if 0 < (wsTokens (jsToLower text)).length then
            ((countOccAtoms pat (jsToLower text).toList * (wsTokens (jsToLower kw)).length : ℕ) : ℚ)
              / ((wsTokens (jsToLower text)).length : ℚ) * 100
          else 0)) ∧
    (∀ pat txt, (∀ c ∈ pat, c ≠ '.') →
      countOccAtoms (pat.map toAtom) txt = countOccLit pat txt) := by
  refine ⟨fun text kw h => ?_, fun text kw w h1 h2 => ?_, fun text kw pat h1 h2 h3 => ?_,
    fun pat txt hp => countOcc_atoms_eq_lit pat hp txt⟩
  · unfold calculateKeywordDensity
    rw [if_pos h]
  · unfold calculateKeywordDensity
    rw [if_neg h1]
    dsimp only
    rw [h2]
  · unfold calculateKeywordDensity
    rw [if_neg h1]
    dsimp only
    cases hkw : wsTokens (jsToLower kw) with
    | nil => rw [h3]
    | cons w ws =>
      cases ws with
      | nil => rw [hkw] at h2; simp at h2
      | cons w2 ws2 => rw [h3]

/-- C4 fails as stated for phrases containing regex metacharacters: the
multi-word phrase "c. d" contains `.`, so on the text "cx d" the code's
`new RegExp` scan finds one occurrence and reports density 100, while
the claimed literal substring scan finds zero occurrences and would
yield density 0. -/
theorem c4_counterexample :
    calculateKeywordDensity "cx d" "c. d" = .ok 100 ∧
    countOccLit (jsToLower "c. d").toList (jsToLower "cx d").toList = 0 ∧
    ((countOccLit (jsToLower "c. d").toList (jsToLower "cx d").toList
        * (wsTokens (jsToLower "c. d")).length : ℕ) : ℚ)
      / ((wsTokens (jsToLower "cx d")).length : ℚ) * 100 = 0 := by
  have h0 : countOccLit (jsToLower "c. d").toList (jsToLower "cx d").toList = 0 := by
    simp [countOccLit, jsToLower]
  refine ⟨?_, h0, ?_⟩
  · have h1 : jsTrim "c. d" = "c. d" := by decide
    have h2 : wsTokens (jsToLower "cx d") = ["cx", "d"] := by decide
    have h3 : wsTokens (jsToLower "c. d") = ["c.", "d"] := by decide
    have h4 : classifyRegex (jsToLower "c. d") = .atoms ((jsToLower "c. d").toList.map toAtom) := by
      decide
    have h5 : countOccAtoms ((jsToLower "c. d").toList.map toAtom) (jsToLower "cx d").toList = 1 := by
      simp [countOccAtoms, jsToLower, toAtom, atomMatches, frontMatch]
    simp only [String.toList] at h5
    simp [calculateKeywordDensity, h1, h2, h3, h4, h5, String.toList]
  · rw [h0]
    norm_num

/-- Witness for `c4_density_formulas` at concrete inputs: a whitespace
phrase, the single-word phrase "A" in "b a b", the metacharacter-free
multi-word phrase "x y", and the literal pattern "ab" in "xabab". -/
theorem c4_density_formulas_witness :
    (jsTrim " " = "" ∧ calculateKeywordDensity "a" " " = .ok 0) ∧
    (calculateKeywordDensity "b a b" "A"
        = .ok (if 0 < (wsTokens (jsToLower "b a b")).length then
            (((wsTokens (jsToLower "b a b")).filter (fun x => x = "a")).length : ℚ)
              / ((wsTokens (jsToLower "b a b")).length : ℚ) * 100
          else 0)) ∧
    (calculateKeywordDensity "x y x y" "x y"
        = .ok (if 0 < (wsTokens (jsToLower "x y x y")).length then
            ((countOccAtoms [RegexAtom.lit 'x', RegexAtom.lit ' ', RegexAtom.lit 'y']
                  (jsToLower "x y x y").toList
                * (wsTokens (jsToLower "x y")).length : ℕ) : ℚ)
              / ((wsTokens (jsToLower "x y x y")).length : ℚ) * 100
          else 0)) ∧
    countOccAtoms ("ab".toList.map toAtom) "xabab".toList = countOccLit "ab".toList "xabab".toList :=
  ⟨⟨by decide, c4_density_formulas.1 "a" " " (by decide)⟩,
   c4_density_formulas.2.1 "b a b" "A" "a" (by decide) (by decide),
   c4_density_formulas.2.2.1 "x y x y" "x y"
     [RegexAtom.lit 'x', RegexAtom.lit ' ', RegexAtom.lit 'y'] (by decide) (by decide) (by decide),
   c4_density_formulas.2.2.2 "ab".toList "xabab".toList (by decide)⟩

/-- A successfully parsed URL's `href` is the input string (the model
keeps resolved hrefs verbatim). -/
lemma parseJsUrl_href (s : String) (u : JsUrl) (h : parseJsUrl s = some u) : u.href = s := by
  unfold parseJsUrl at h
  dsimp only at h
  split at h
  · exact absurd h (by simp)
  · split at h
    · exact absurd h (by simp)
    · rw [Option.some_inj] at h
      subst h
      rfl

/-- Every member of the original link set parses: `extractUrls` only
adds URLs whose construction succeeded. -/
lemma mem_extractUrls_parses (d : List HtmlNode) (m : String) (h : m ∈ extractUrls d) :
    (parseJsUrl m).isSome := by
  induction d with
  | nil => simp [extractUrls] at h
  | cons n rest ih =>
    cases n with
    | textNode s => exact ih (by simpa [extractUrls] using h)
    | anchor href txt =>
      cases hp : parseJsUrl href with
      | none =>
        apply ih
        simpa [extractUrls, hp] using h
      | some u =>
        have hm : m = u.href ∨ m ∈ extractUrls rest := by
          simpa [extractUrls, hp] using h
        cases hm with
        | inr h2 => exact ih h2
        | inl h2 =>
          subst h2
          rw [parseJsUrl_href href u hp, hp]
          rfl

/-- C5: the provenance filter maps over the revised document's nodes;
an anchor whose href is verbatim in the original link set is preserved
even when its host is not allow-listed; an anchor neither in the
original set nor hosted exactly at an allow-listed domain or one of its
subdomains is replaced by a text node holding its visible text; and an
anchor with a malformed URL is treated as disallowed and stripped (a
malformed URL can never be in the original link set). -/
theorem c5_link_provenance :
    (∀ orig rev allow, stripNewUrls orig rev allow = rev.map (stripNode orig allow)) ∧
    (∀ orig allow hr t, hr ∈ extractUrls orig →
      stripNode orig allow (.anchor hr t) = .anchor hr t) ∧
    (∀ orig allow hr t u, hr ∉ extractUrls orig → parseJsUrl hr = some u →
      allowHost allow u.hostname = false → stripNode orig allow (.anchor hr t) = .textNode t) ∧
    (∀ orig allow hr t, parseJsUrl hr = none → stripNode orig allow (.anchor hr t) = .textNode t) := by
  refine ⟨fun orig rev allow => rfl, fun orig allow hr t hmem => ?_,
    fun orig allow hr t u hmem hp hal => ?_, fun orig allow hr t hp => ?_⟩
  · unfold stripNode
    dsimp only
    simp [List.elem_eq_true_of_mem hmem]
    exact fun hcon => absurd hmem hcon
  · unfold stripNode
    dsimp only
    have hc : (extractUrls orig).contains hr = false := by
      by_contra hcon
      exact hmem (List.mem_of_elem_eq_true (by simpa using hcon))
    simp [hc, hp, hal]
    exact hmem
  · unfold stripNode
    dsimp only
    have hc : (extractUrls orig).contains hr = false := by
      by_contra hcon
      have hm2 : hr ∈ extractUrls orig := List.mem_of_elem_eq_true (by simpa using hcon)
      have := mem_extractUrls_parses orig hr hm2
      rw [hp] at this
      simp at this
    simp [hc, hp]
    exact fun hcon => absurd hcon (by
      intro hm2
      have := mem_extractUrls_parses orig hr hm2
      rw [hp] at this
      simp at this)

/-- Witness for `c5_link_provenance`: one original link kept verbatim
despite not being allow-listed, one new disallowed domain stripped to
text, one malformed href stripped to text. -/
theorem c5_link_provenance_witness :
    (stripNode [HtmlNode.anchor "http://keep.com/a" "Keep"] ["good.com"]
        (.anchor "http://keep.com/a" "t1") = .anchor "http://keep.com/a" "t1") ∧
    (stripNode [HtmlNode.anchor "http://keep.com/a" "Keep"] ["good.com"]
        (.anchor "http://evil.com/x" "t2") = .textNode "t2") ∧
    (stripNode [HtmlNode.anchor "http://keep.com/a" "Keep"] ["good.com"]
        (.anchor "notaurl" "t3") = .textNode "t3") :=
  ⟨c5_link_provenance.2.1 [HtmlNode.anchor "http://keep.com/a" "Keep"] ["good.com"]
      "http://keep.com/a" "t1" (by decide),
   c5_link_provenance.2.2.1 [HtmlNode.anchor "http://keep.com/a" "Keep"] ["good.com"]
      "http://evil.com/x" "t2" { href := "http://evil.com/x", hostname := "evil.com" }
      (by decide) (by decide) (by decide),
   c5_link_provenance.2.2.2 [HtmlNode.anchor "http://keep.com/a" "Keep"] ["good.com"]
      "notaurl" "t3" (by decide)⟩

/-- The backoff test script: three rate-limit responses, then success. -/
def llm429Script : Nat → FetchOutcome := fun a => if a < 3 then .err 429 else .ok "rewritten"

/-- Starting from any attempt index, `callLLM` issues at most
`max 1 (maxAttempts - attempt)` fetches. -/
lemma callLLM_fetches_le :
    ∀ n a, llmMaxAttempts - a ≤ n → ∀ key script jitter,
      (callLLM key script jitter a).fetches ≤ max 1 (llmMaxAttempts - a) := by
  intro n
  induction n with
  | zero =>
    intro a ha key script jitter
    rw [callLLM.eq_def]
    split
    · dsimp only
      omega
    · split
      · dsimp only
        omega
      · split
        · rename_i hcond
          simp only [Bool.and_eq_true, decide_eq_true_eq, llmMaxAttempts] at hcond ha
          omega
        · dsimp only
          omega
  | succ n ih =>
    intro a ha key script jitter
    rw [callLLM.eq_def]
    split
    · dsimp only
      omega
    · split
      · dsimp only
        omega
      · split
        · rename_i hcond
          simp only [Bool.and_eq_true, decide_eq_true_eq] at hcond
          have hrec := ih (a + 1) (by simp only [llmMaxAttempts] at ha ⊢; omega) key script jitter
          dsimp only
          simp only [llmMaxAttempts] at hcond hrec ⊢
          omega
        · dsimp only
          omega

/-- C6: the remediation client never exceeds the fixed maximum attempt
count (5 fetches from attempt 0); a client-error response (neither 429
nor ≥ 500) fails immediately with exactly one fetch and no delays; a
missing credential fails with zero fetches; each backoff delay is the
exponentially growing base delay capped at 8000 plus the jitter; and
three consecutive 429 responses followed by a success return the success
on the 4th attempt with the three backoff delays awaited in order. -/
theorem c6_retry_policy :
    (∀ key script jitter, (callLLM key script jitter 0).fetches ≤ llmMaxAttempts) ∧
    (∀ key script jitter a s, key ≠ "" → script a = .err s → s ≠ 429 → s < 500 →
      callLLM key script jitter a
        = { fetches := 1, delays := [], result := .error (.http s) }) ∧
    (∀ script jitter a, callLLM "" script jitter a
        = { fetches := 0, delays := [], result := .error .missingKey }) ∧
    (∀ a j, backoffDelay a j = min 8000 (llmBaseDelay * 2 ^ a) + j) ∧
    (∀ key jitter, key ≠ "" →
      callLLM key llm429Script jitter 0
        = { fetches := 4
            delays := [backoffDelay 0 (jitter 0), backoffDelay 1 (jitter 1),
              backoffDelay 2 (jitter 2)]
            result := .ok "rewritten" }) := by
  refine ⟨fun key script jitter => ?_, fun key script jitter a s hk hs h429 h500 => ?_,
    fun script jitter a => ?_, fun a j => rfl, fun key jitter hk => ?_⟩
  · have := callLLM_fetches_le (llmMaxAttempts - 0) 0 le_rfl key script jitter
    simp only [llmMaxAttempts] at this ⊢
    omega
  · rw [callLLM.eq_def]
    rw [if_neg hk, hs]
    simp [h429, Nat.not_le.mpr h500]
  · rw [callLLM.eq_def]
    simp
  · simp [callLLM, llm429Script, hk, llmMaxAttempts]

/-- Witness for `c6_retry_policy` at the concrete key "k", zero jitter,
the 3×429-then-success script and a single-400 script. -/
theorem c6_retry_policy_witness :
    ((callLLM "k" llm429Script (fun _ => 0) 0).fetches ≤ llmMaxAttempts) ∧
    (callLLM "k" (fun _ => .err 400) (fun _ => 0) 0
        = { fetches := 1, delays := [], result := .error (.http 400) }) ∧
    (callLLM "" llm429Script (fun _ => 0) 0
        = { fetches := 0, delays := [], result := .error .missingKey }) ∧
    (backoffDelay 2 0 = min 8000 (llmBaseDelay * 2 ^ 2) + 0) ∧
    (callLLM "k" llm429Script (fun _ => 0) 0
        = { fetches := 4
            delays := [backoffDelay 0 0, backoffDelay 1 0, backoffDelay 2 0]
            result := .ok "rewritten" }) :=
  ⟨c6_retry_policy.1 "k" llm429Script (fun _ => 0),
   c6_retry_policy.2.1 "k" (fun _ => .err 400) (fun _ => 0) 0 400 (by decide) rfl
     (by decide) (by decide),
   c6_retry_policy.2.2.1 llm429Script (fun _ => 0) 0,
   c6_retry_policy.2.2.2.1 2 0,
   c6_retry_policy.2.2.2.2 "k" (fun _ => 0) (by decide)⟩

/-- The single-worker execution trace starts exactly the tasks up to and
including the first rejecting one. -/
lemma runSeqExecAux_eq :
    ∀ tasks i, runSeqExecAux tasks i
      = List.range' i (min tasks.length ((tasks.takeWhile isOkTask).length + 1)) := by
  intro tasks
  induction tasks with
  | nil => intro i; simp [runSeqExecAux]
  | cons t rest ih =>
    intro i
    cases ht : isOkTask t with
    | true =>
      simp only [runSeqExecAux, ht, List.takeWhile_cons, List.length_cons, if_true]
      rw [ih (i + 1)]
      rw [show min (rest.length + 1) ((List.takeWhile isOkTask rest).length + 1 + 1)
            = min rest.length ((List.takeWhile isOkTask rest).length + 1) + 1 by omega]
      rw [List.range'_succ]
    | false =>
      simp only [runSeqExecAux, ht, List.takeWhile_cons, List.length_cons,
        Bool.false_eq_true, if_false, List.length_nil]
      rw [show min (rest.length + 1) (0 + 1) = 1 by omega]
      rfl

/-- C1 (amended): a remediation failure never changes any document — a
rejected `fixOne` leaves the draft list (and in particular every
Verdict) untouched — and the tasks claimed before the failure still run;
but the failure is not isolated: the rejection propagates out of
`runWithConcurrency`, and with concurrency 1 the executed tasks are
exactly those up to and including the first failing one, so documents
queued behind a failure are never dispatched in that pass. -/
theorem c1_failure_semantics :
    (∀ tasks, runSeqExec tasks
        = List.range (min tasks.length ((tasks.takeWhile isOkTask).length + 1))) ∧
    (∀ drafts d e, applyFix drafts d (.error e) = drafts) ∧
    (∀ allow d e, fixOneResult allow d (.error e) = .error e) := by
  refine ⟨fun tasks => ?_, fun drafts d e => rfl, fun allow d e => rfl⟩
  rw [List.range_eq_range']
  exact runSeqExecAux_eq tasks 0

/-- C1 fails as stated: with concurrency 1 and two failing documents
whose first remediation task rejects, the single worker's loop aborts —
only task 0 is ever started and document 1's remediation task is never
run, so a per-document failure does abort the rest of the pass. -/
theorem c1_counterexample :
    runSeqExec [TaskOutcome.fail, TaskOutcome.ok] = [0] ∧
    1 ∉ runSeqExec [TaskOutcome.fail, TaskOutcome.ok] := by
  refine ⟨by decide, by decide⟩

/-- The pool invariant holds in every reachable state. -/
lemma poolInv_reach {pool n : Nat} {s : PoolState} (h : PoolReach pool n s) :
    PoolInv pool n s := by
  induction h with
  | init =>
    refine ⟨by simp [initPool], by simp [initPool], by simp [initPool], by simp [initPool],
      by simp [initPool]⟩
  | @step s s2 hr hs ih =>
    obtain ⟨hc, hw, hn, hu, hd⟩ := ih
    cases hs with
    | claim h1 h2 =>
      refine ⟨?_, hw, ?_, ?_, ?_⟩
      · calc (insert s.next s.inflight).card
            ≤ s.inflight.card + 1 := Finset.card_insert_le _ _
          _ ≤ s.workers := h1
      · dsimp only
        omega
      · dsimp only
        rw [Finset.insert_union, hu, Finset.range_succ]
      · dsimp only
        rw [Finset.disjoint_left]
        intro x hx hx2
        rcases Finset.mem_insert.mp hx with hx1 | hx1
        · subst hx1
          have hmem : s.next ∈ s.inflight ∪ s.done := Finset.mem_union_right _ hx2
          rw [hu] at hmem
          exact absurd (Finset.mem_range.mp hmem) (lt_irrefl _)
        · exact (Finset.disjoint_left.mp hd hx1) hx2
    | resolve t h =>
      refine ⟨?_, hw, hn, ?_, ?_⟩
      · exact le_trans (Finset.card_le_card (Finset.erase_subset t s.inflight)) hc
      · dsimp only
        rw [← hu]
        ext x
        by_cases hx : x = t
        · subst hx
          simp [h]
        · simp [hx]
      · dsimp only
        rw [Finset.disjoint_right]
        intro x hx
        rcases Finset.mem_insert.mp hx with hx1 | hx1
        · subst hx1
          exact Finset.not_mem_erase x s.inflight
        · intro hx2
          exact (Finset.disjoint_right.mp hd hx1) (Finset.mem_of_mem_erase hx2)
    | reject t h =>
      refine ⟨?_, by dsimp only; omega, hn, ?_, ?_⟩
      · dsimp only
        rw [Finset.card_erase_of_mem h]
        have hone : 1 ≤ s.inflight.card := Finset.card_pos.mpr ⟨t, h⟩
        omega
      · dsimp only
        rw [← hu]
        ext x
        by_cases hx : x = t
        · subst hx
          simp [h]
        · simp [hx]
      · dsimp only
        rw [Finset.disjoint_right]
        intro x hx
        rcases Finset.mem_insert.mp hx with hx1 | hx1
        · subst hx1
          exact Finset.not_mem_erase x s.inflight
        · intro hx2
          exact (Finset.disjoint_right.mp hd hx1) (Finset.mem_of_mem_erase hx2)

/-- In a terminal reachable state (no step applies) that still has a
live worker — in particular after a pass in which no task rejected —
every queued task was claimed and settled exactly once. -/
lemma pool_final {pool n : Nat} {s : PoolState} (hw : 0 < s.workers) (hr : PoolReach pool n s)
    (hfin : ∀ s2, ¬ PoolStep pool n s s2) :
    s.next = n ∧ s.inflight = ∅ ∧ s.done = Finset.range n := by
  obtain ⟨hc, hwp, hn, hu, hd⟩ := poolInv_reach hr
  have hin : s.inflight = ∅ := by
    by_contra hne
    obtain ⟨t, ht⟩ := Finset.nonempty_iff_ne_empty.mpr hne
    exact hfin _ (PoolStep.resolve s t ht)
  have hnext : s.next = n := by
    by_contra hne
    have hlt : s.next < n := lt_of_le_of_ne hn hne
    have hcard : s.inflight.card < s.workers := by
      rw [hin]
      simpa using hw
    exact hfin _ (PoolStep.claim s hcard hlt)
  refine ⟨hnext, hin, ?_⟩
  rw [hin, hnext] at hu
  simpa using hu

/-- C9 (amended): during a pass at most the configured concurrency `N`
remediation calls are ever in flight, and each failing document is
dispatched at most once (the claimed indices are always exactly the
initial segment `0 .. next-1` of the queue, split between in-flight and
settled); in a pass in which no remediation call rejects — so a live
worker remains — every document is dispatched exactly once and the pass
runs to completion, and with 5 failing documents, concurrency 2,
`maxPasses = 1`, `autoLoop = false` exactly 5 calls are dispatched over
one pass whatever the resulting gate verdicts.  A rejecting call instead
kills its worker, which can leave queued documents undispatched. -/
theorem c9_orchestrator :
    (∀ pool n s, PoolReach pool n s → s.inflight.card ≤ pool) ∧
    (∀ pool n s, PoolReach pool n s → s.inflight ∪ s.done = Finset.range s.next) ∧
    (∀ pool n s, 0 < s.workers → PoolReach pool n s → (∀ s2, ¬ PoolStep pool n s s2) →
      s.next = n ∧ s.inflight = ∅ ∧ s.done = Finset.range n) ∧
    fixAllModel 1 false 5 = (1, 5) :=
  ⟨fun pool n s h =>
      le_trans (poolInv_reach h).1 (poolInv_reach h).2.1,
   fun pool n s h => (poolInv_reach h).2.2.2.1,
   fun pool n s hw hr hf => pool_final hw hr hf,
   by decide⟩

/-- C9 fails as stated: with 5 failing documents and concurrency 2, if
the two first remediation calls reject, both workers die — the pass
reaches a terminal state having dispatched only 2 of the 5 calls, and
document 2 is never dispatched at all, refuting "each failing document
is dispatched exactly once per pass" and "exactly 5 remediation calls
are dispatched". -/
theorem c9_counterexample :
    PoolReach 2 5 ⟨2, ∅, insert 1 {0}, 0⟩ ∧
    (∀ s2, ¬ PoolStep 2 5 (⟨2, ∅, insert 1 {0}, 0⟩ : PoolState) s2) ∧
    (⟨2, ∅, insert 1 {0}, 0⟩ : PoolState).next = 2 ∧
    (2 : ℕ) ∉ (⟨2, ∅, insert 1 {0}, 0⟩ : PoolState).inflight ∪
      (⟨2, ∅, insert 1 {0}, 0⟩ : PoolState).done ∧
    (⟨2, ∅, insert 1 {0}, 0⟩ : PoolState).next ≠ 5 := by
  have h0 : PoolReach 2 5 (initPool 2) := PoolReach.init
  have h1 : PoolReach 2 5 ⟨1, {0}, ∅, 2⟩ :=
    PoolReach.step h0 (PoolStep.claim (initPool 2) (by decide) (by decide))
  have h2 : PoolReach 2 5 ⟨2, insert 1 {0}, ∅, 2⟩ :=
    PoolReach.step h1 (PoolStep.claim ⟨1, {0}, ∅, 2⟩ (by decide) (by decide))
  have h3 : PoolReach 2 5 ⟨2, Finset.erase (insert 1 {0}) 0, {0}, 1⟩ :=
    PoolReach.step h2 (PoolStep.reject ⟨2, insert 1 {0}, ∅, 2⟩ 0 (by decide))
  have e3 : Finset.erase (insert 1 {0}) 0 = ({1} : Finset ℕ) := by
    apply Finset.ext
    intro x
    simp
    omega
  rw [e3] at h3
  have h4 : PoolReach 2 5 ⟨2, Finset.erase {1} 1, insert 1 {0}, 0⟩ :=
    PoolReach.step h3 (PoolStep.reject ⟨2, {1}, {0}, 1⟩ 1 (by decide))
  have e4 : Finset.erase ({1} : Finset ℕ) 1 = ∅ := by
    apply Finset.ext
    intro x
    simp
  rw [e4] at h4
  have hfin : ∀ s2, ¬ PoolStep 2 5 (⟨2, ∅, insert 1 {0}, 0⟩ : PoolState) s2 := by
    intro s2 hs
    cases hs with
    | claim h1 h2 => exact absurd h1 (by decide)
    | resolve t h => simp at h
    | reject t h => simp at h
  refine ⟨h4, hfin, rfl, by decide, by decide⟩

/-- Witness for `c9_orchestrator`: an explicit interleaved trace of the
5-task, 2-worker pool in which every call resolves (claim 0, claim 1,
resolve 0, claim 2, resolve 1, claim 3, resolve 2, claim 4, resolve 3,
resolve 4) reaching the terminal state, which the theorem pins to
`done = range 5` — all 5 dispatched exactly once. -/
theorem c9_orchestrator_witness :
    (PoolState.mk 5 ∅ (Finset.range 5) 2).inflight.card ≤ 2 ∧
    (PoolState.mk 5 ∅ (Finset.range 5) 2).inflight ∪ (PoolState.mk 5 ∅ (Finset.range 5) 2).done
      = Finset.range (PoolState.mk 5 ∅ (Finset.range 5) 2).next ∧
    ((PoolState.mk 5 ∅ (Finset.range 5) 2).next = 5 ∧
      (PoolState.mk 5 ∅ (Finset.range 5) 2).inflight = ∅ ∧
      (PoolState.mk 5 ∅ (Finset.range 5) 2).done = Finset.range 5) ∧
    fixAllModel 1 false 5 = (1, 5) := by
  have h0 : PoolReach 2 5 (initPool 2) := PoolReach.init
  have h1 : PoolReach 2 5 ⟨1, {0}, ∅, 2⟩ :=
    PoolReach.step h0 (PoolStep.claim (initPool 2) (by decide) (by decide))
  have h2 : PoolReach 2 5 ⟨2, insert 1 {0}, ∅, 2⟩ :=
    PoolReach.step h1 (PoolStep.claim ⟨1, {0}, ∅, 2⟩ (by decide) (by decide))
  have h3 : PoolReach 2 5 ⟨2, Finset.erase (insert 1 {0}) 0, {0}, 2⟩ :=
    PoolReach.step h2 (PoolStep.resolve ⟨2, insert 1 {0}, ∅, 2⟩ 0 (by decide))
  have h4 : PoolReach 2 5 ⟨3, insert 2 (Finset.erase (insert 1 {0}) 0), {0}, 2⟩ :=
    PoolReach.step h3
      (PoolStep.claim ⟨2, Finset.erase (insert 1 {0}) 0, {0}, 2⟩ (by decide) (by decide))
  have h5 : PoolReach 2 5
      ⟨3, Finset.erase (insert 2 (Finset.erase (insert 1 {0}) 0)) 1, insert 1 {0}, 2⟩ :=
    PoolReach.step h4
      (PoolStep.resolve ⟨3, insert 2 (Finset.erase (insert 1 {0}) 0), {0}, 2⟩ 1 (by decide))
  have e5 : Finset.erase (insert 2 (Finset.erase (insert 1 {0}) 0)) 1 = ({2} : Finset ℕ) := by
    apply Finset.ext
    intro x
    simp
    omega
  rw [e5] at h5
  have h6 : PoolReach 2 5 ⟨4, insert 3 {2}, insert 1 {0}, 2⟩ :=
    PoolReach.step h5 (PoolStep.claim ⟨3, {2}, insert 1 {0}, 2⟩ (by decide) (by decide))
  have h7 : PoolReach 2 5 ⟨4, Finset.erase (insert 3 {2}) 2, insert 2 (insert 1 {0}), 2⟩ :=
    PoolReach.step h6 (PoolStep.resolve ⟨4, insert 3 {2}, insert 1 {0}, 2⟩ 2 (by decide))
  have e7 : Finset.erase (insert 3 {2}) 2 = ({3} : Finset ℕ) := by
    apply Finset.ext
    intro x
    simp
    omega
  rw [e7] at h7
  have h8 : PoolReach 2 5 ⟨5, insert 4 {3}, insert 2 (insert 1 {0}), 2⟩ :=
    PoolReach.step h7
      (PoolStep.claim ⟨4, {3}, insert 2 (insert 1 {0}), 2⟩ (by decide) (by decide))
  have h9 : PoolReach 2 5
      ⟨5, Finset.erase (insert 4 {3}) 3, insert 3 (insert 2 (insert 1 {0})), 2⟩ :=
    PoolReach.step h8
      (PoolStep.resolve ⟨5, insert 4 {3}, insert 2 (insert 1 {0}), 2⟩ 3 (by decide))
  have e9 : Finset.erase (insert 4 {3}) 3 = ({4} : Finset ℕ) := by
    apply Finset.ext
    intro x
    simp
    omega
  rw [e9] at h9
  have h10 : PoolReach 2 5
      ⟨5, Finset.erase {4} 4, insert 4 (insert 3 (insert 2 (insert 1 {0}))), 2⟩ :=
    PoolReach.step h9
      (PoolStep.resolve ⟨5, {4}, insert 3 (insert 2 (insert 1 {0})), 2⟩ 4 (by decide))
  have e10 : Finset.erase ({4} : Finset ℕ) 4 = ∅ := by
    apply Finset.ext
    intro x
    simp
  have e10b : insert 4 (insert 3 (insert 2 (insert 1 ({0} : Finset ℕ)))) = Finset.range 5 := by
    apply Finset.ext
    intro x
    simp [Finset.mem_range]
    omega
  rw [e10, e10b] at h10
  have hfin : ∀ s2, ¬ PoolStep 2 5 (PoolState.mk 5 ∅ (Finset.range 5) 2) s2 := by
    intro s2 hs
    cases hs with
    | claim h1 h2 => exact absurd h2 (by decide)
    | resolve t h => simp at h
    | reject t h => simp at h
  exact ⟨c9_orchestrator.1 2 5 _ h10, c9_orchestrator.2.1 2 5 _ h10,
    c9_orchestrator.2.2.1 2 5 _ (by decide) h10 hfin, c9_orchestrator.2.2.2⟩
